import Mathlib

/-!
Shallow embedding of the SatyaMart role/approval workflow and order
workflow.  The source is a Supabase-backed React application; the logic
embedded here is: the SQL schema and row-level-security (RLS) policies of
`supabase/create_tables.sql`, the `signUp` provisioning flow of the
`useAuth` hook, the supplier-approval handlers of the Approvals page, the
order handlers of the Orders page, and the product/order helpers of the
Products page.

Modelling conventions:
* text columns are `String`; `decimal(10,2)` money columns are `Int`;
  `uuid` keys are `Nat`; timestamp columns are omitted.
* a table is a `List` of row structures; the `unique` constraints of the
  schema live inside the insert operations, which fail with a
  constraint-error flag when uniqueness would be violated.
* Supabase evaluates an RLS `using` predicate as a row filter: an update
  whose policy rejects a row silently skips the row and no error is
  raised.  Update operations therefore return the new state together with
  the number of affected rows, and a policy-error flag that the platform
  never sets, mirroring the semantics the code runs under.
* the model is sequential: each handler reads the current state, so the
  row a UI guard inspects is the row the update hits.
-/

namespace SatyaMart

/-- Roles from the `user_roles.role` check constraint. -/
inductive Role where
  | supplier
  | vendor
  | superadmin
deriving DecidableEq, Repr

/-- Approval states from the `user_roles.approval_status` check constraint. -/
inductive ApprovalStatus where
  | pending
  | approved
  | rejected
deriving DecidableEq, Repr

/-- Order states used by the Orders page (`orders.status`). -/
inductive OrderStatus where
  | pending
  | confirmed
  | shipped
  | delivered
  | cancelled
deriving DecidableEq, Repr

/-- A row of `user_roles` (surrogate id and timestamps omitted). -/
structure UserRoleRow where
  user_id : Nat
  role : Role
  approval_status : ApprovalStatus
deriving DecidableEq, Repr

/-- A row of `supplier_profiles` (the columns the embedded logic reads). -/
structure SupplierProfileRow where
  user_id : Nat
  full_name : String
  business_name : String
  business_type : String
  business_address : String
  contact_number : String
deriving DecidableEq, Repr

/-- A row of `suppliers`.  `address` is nullable: the sign-up trigger
inserts a row without it. -/
structure SupplierRow where
  id : Nat
  user_id : Nat
  name : String
  contact_email : String
  address : Option String
  status : String
deriving DecidableEq, Repr

/-- A row of `products` (the columns the claims touch). -/
structure ProductRow where
  id : Nat
  name : String
  unit_price : Int
  stock_quantity : Int
  min_stock_level : Int
  status : String
  supplier_id : Nat
deriving DecidableEq, Repr

/-- A row of `orders`. -/
structure OrderRow where
  id : Nat
  user_id : Nat
  product_id : Nat
  supplier_id : Nat
  quantity : Int
  unit_price : Int
  total_amount : Int
  status : OrderStatus
deriving DecidableEq, Repr

/-- The database state: the five tables the claims are about. -/
structure DB where
  user_roles : List UserRoleRow
  supplier_profiles : List SupplierProfileRow
  suppliers : List SupplierRow
  products : List ProductRow
  orders : List OrderRow
deriving DecidableEq, Repr

/-- The role row the `useAuth` hook fetches for a signed-in account
(`from('user_roles').select().eq('user_id', userId).single()`). -/
def roleOf (db : DB) (uid : Nat) : Option Role :=
  (db.user_roles.find? (fun ur => ur.user_id == uid)).map (fun ur => ur.role)

/-- The approval status of an account's role row. -/
def approvalOf (db : DB) (uid : Nat) : Option ApprovalStatus :=
  (db.user_roles.find? (fun ur => ur.user_id == uid)).map (fun ur => ur.approval_status)

/-- RLS predicate of the policies "Superadmins can update all roles" /
"Superadmins can view all roles": `exists (select 1 from user_roles ur
where ur.user_id = auth.uid() and ur.role = 'superadmin')`. -/
def isSuperadmin (db : DB) (uid : Nat) : Bool :=
  db.user_roles.any (fun ur => ur.user_id == uid && ur.role == Role.superadmin)

/-- The bootstrap superadmin address hardcoded in `signUp`:
`email.toLowerCase() === 'fieronrhys@gmail.com'`. -/
def hardcodedSuperadminEmail : String := "fieronrhys@gmail.com"

/-- The `user_roles` row that `signUp` inserts: role is forced to
`superadmin` for the hardcoded address, and approval status is `pending`
exactly for non-bootstrap suppliers:
`approval_status: (finalRole === 'supplier' && !isHardcodedSuperadmin) ? 'pending' : 'approved'`. -/
def signUpRoleRow (email : String) (requestedRole : Role) (uid : Nat) : UserRoleRow :=
  let isHardcodedSuperadmin := email.toLower == hardcodedSuperadminEmail
  let finalRole := if isHardcodedSuperadmin then Role.superadmin else requestedRole
  { user_id := uid
    role := finalRole
    approval_status :=
      if finalRole == Role.supplier && !isHardcodedSuperadmin then
        ApprovalStatus.pending
      else
        ApprovalStatus.approved }

/-- C2: for every sign-up, if the account's email case-insensitively
equals the bootstrap-superadmin address the created role row is
`superadmin`/`approved` regardless of the requested role; otherwise it
carries the requested role, with status `pending` when that role is
`supplier` and `approved` when it is `vendor` or `superadmin`. -/
theorem signUpRoleRow_spec (email : String) (requestedRole : Role) (uid : Nat) :
    signUpRoleRow email requestedRole uid =
      if email.toLower = hardcodedSuperadminEmail then
        { user_id := uid, role := Role.superadmin,
          approval_status := ApprovalStatus.approved }
      else
        { user_id := uid, role := requestedRole,
          approval_status :=
            if requestedRole = Role.supplier then ApprovalStatus.pending
            else ApprovalStatus.approved } := by
  unfold signUpRoleRow
  by_cases h : email.toLower = hardcodedSuperadminEmail
  · simp [h]
  · simp [h]

/-- Outcome of a Supabase `update` call: the new database, the number of
rows the update matched, and whether an error was surfaced to the caller.
An RLS `using` predicate filters rows rather than raising an error, so
`policyError` stays `false` even when the policy matches no row at all. -/
structure UpdateOutcome where
  db : DB
  rowsAffected : Nat
  policyError : Bool
deriving DecidableEq, Repr

/-- `supabase.from('user_roles').update({ approval_status }).eq('user_id', userId)`
as executed under the RLS policy "Superadmins can update all roles": a row
is updated when it matches the filter and the caller's policy predicate
holds; rows the policy rejects are skipped without error. -/
def updateUserRoleStatus (db : DB) (caller targetUser : Nat)
    (newStatus : ApprovalStatus) : UpdateOutcome :=
  let hit := fun ur : UserRoleRow => ur.user_id == targetUser && isSuperadmin db caller
  { db := { db with user_roles := db.user_roles.map (fun ur =>
        if hit ur then { ur with approval_status := newStatus } else ur) }
    rowsAffected := (db.user_roles.filter hit).length
    policyError := false }

/-- `handleApproveSupplier` of the Approvals page. -/
def handleApproveSupplier (db : DB) (caller targetUser : Nat) : UpdateOutcome :=
  updateUserRoleStatus db caller targetUser ApprovalStatus.approved

/-- `handleRejectSupplier` of the Approvals page. -/
def handleRejectSupplier (db : DB) (caller targetUser : Nat) : UpdateOutcome :=
  updateUserRoleStatus db caller targetUser ApprovalStatus.rejected

/-- Outcome of a Supabase `insert`: `constraintError` is set when a
`unique` column collides (Postgres rejects the row, the table is
unchanged). -/
structure InsertOutcome where
  db : DB
  constraintError : Bool
deriving DecidableEq, Repr

/-- Insert into `user_roles` under its unique constraint
(`user_id uuid references auth.users(id) unique not null`). -/
def insertUserRole (db : DB) (row : UserRoleRow) : InsertOutcome :=
  if db.user_roles.any (fun ur => ur.user_id == row.user_id) then
    { db := db, constraintError := true }
  else
    { db := { db with user_roles := db.user_roles ++ [row] }, constraintError := false }

/-- Uniqueness invariant of `user_roles`: at most one row per account. -/
def rolesUnique (db : DB) : Prop :=
  (db.user_roles.map (fun ur => ur.user_id)).Nodup

instance rolesUniqueDecidable (db : DB) : Decidable (rolesUnique db) := by
  unfold rolesUnique
  infer_instance

/-- A state with a pending supplier (account 1) and an approved vendor
(account 2), used to exercise the approval handlers. -/
def approvalExampleDB : DB :=
  { user_roles :=
      [ { user_id := 1, role := Role.supplier, approval_status := ApprovalStatus.pending }
      , { user_id := 2, role := Role.vendor, approval_status := ApprovalStatus.approved } ]
    supplier_profiles := []
    suppliers := []
    products := []
    orders := [] }

/-- C1 counterexample: account 2 is not a superadmin, yet its attempt to
approve the pending supplier account 1 does not return a PolicyError: the
update reports success with zero affected rows (and the table is indeed
unchanged), so the claimed PolicyError outcome is refuted. -/
theorem handleApproveSupplier_no_policy_error :
    isSuperadmin approvalExampleDB 2 = false
    ∧ approvalOf approvalExampleDB 1 = some ApprovalStatus.pending
    ∧ (handleApproveSupplier approvalExampleDB 2 1).policyError = false
    ∧ (handleApproveSupplier approvalExampleDB 2 1).rowsAffected = 0
    ∧ (handleApproveSupplier approvalExampleDB 2 1).db = approvalExampleDB := by
  decide

/-- C1 (amended): only a superadmin caller can change any
`approval_status`: a non-superadmin caller's update matches zero rows and
leaves the table unchanged; however the caller observes a silent empty
success (no PolicyError), not a distinct forbidden outcome. -/
theorem updateUserRoleStatus_superadmin_only (db : DB) (caller targetUser : Nat)
    (newStatus : ApprovalStatus) (h : isSuperadmin db caller = false) :
    (updateUserRoleStatus db caller targetUser newStatus).db = db
    ∧ (updateUserRoleStatus db caller targetUser newStatus).rowsAffected = 0
    ∧ (updateUserRoleStatus db caller targetUser newStatus).policyError = false := by
  simp [updateUserRoleStatus, h]

/-- C1 witness: the amended theorem applied to the example state with the
non-superadmin caller 2. -/
theorem updateUserRoleStatus_superadmin_only_witness :
    isSuperadmin approvalExampleDB 2 = false
    ∧ ((updateUserRoleStatus approvalExampleDB 2 1 ApprovalStatus.approved).db = approvalExampleDB
      ∧ (updateUserRoleStatus approvalExampleDB 2 1 ApprovalStatus.approved).rowsAffected = 0
      ∧ (updateUserRoleStatus approvalExampleDB 2 1 ApprovalStatus.approved).policyError = false) :=
  ⟨by decide, updateUserRoleStatus_superadmin_only approvalExampleDB 2 1
    ApprovalStatus.approved (by decide)⟩

/-- Folding a batch of role inserts, one per attempted sign-up; any
interleaving of concurrent sign-ups executes as some such sequence of
atomic inserts. -/
def insertUserRoles (db : DB) (rows : List UserRoleRow) : DB :=
  rows.foldl (fun d r => (insertUserRole d r).db) db

theorem insertUserRole_preserves_unique (db : DB) (row : UserRoleRow)
    (h : rolesUnique db) : rolesUnique (insertUserRole db row).db := by
  unfold insertUserRole
  by_cases hc : db.user_roles.any (fun ur => ur.user_id == row.user_id) = true
  · rw [if_pos hc]
    exact h
  · rw [if_neg hc]
    unfold rolesUnique at h ⊢
    simp only [List.map_append, List.map_cons, List.map_nil]
    rw [List.nodup_append]
    refine ⟨h, List.nodup_singleton _, ?_⟩
    intro a ha hb
    simp only [List.mem_singleton] at hb
    subst hb
    rcases List.mem_map.mp ha with ⟨ur, hur, hid⟩
    exact hc (List.any_eq_true.mpr ⟨ur, hur, beq_iff_eq.mpr hid⟩)

/-- C3: `user_roles` keeps at most one row per account at all times: the
sign-up insert preserves the uniqueness invariant (so any sequence of
concurrent sign-up inserts does), a sign-up insert for an account that
already has a row fails with a ConstraintError leaving the table
unchanged, and the only other mutation of the table (the superadmin
approval update) preserves the invariant as well. -/
theorem user_roles_at_most_one (db : DB) (rows : List UserRoleRow)
    (row : UserRoleRow) (caller targetUser : Nat) (newStatus : ApprovalStatus)
    (h : rolesUnique db) :
    rolesUnique (insertUserRole db row).db
    ∧ ((∃ ur ∈ db.user_roles, ur.user_id = row.user_id) →
        insertUserRole db row = { db := db, constraintError := true })
    ∧ rolesUnique (insertUserRoles db rows)
    ∧ rolesUnique (updateUserRoleStatus db caller targetUser newStatus).db := by
  refine ⟨insertUserRole_preserves_unique db row h, ?_, ?_, ?_⟩
  · rintro ⟨ur, hur, hEq⟩
    unfold insertUserRole
    have : db.user_roles.any (fun ur => ur.user_id == row.user_id) = true := by
      simp only [List.any_eq_true, beq_iff_eq]
      exact ⟨ur, hur, hEq⟩
    simp [this]
  · induction rows generalizing db with
    | nil => simpa [insertUserRoles] using h
    | cons r rs ih =>
        have h1 := insertUserRole_preserves_unique db r h
        simpa [insertUserRoles, List.foldl_cons] using ih _ h1
  · unfold updateUserRoleStatus rolesUnique
    have : (db.user_roles.map (fun ur =>
        if ur.user_id == targetUser && isSuperadmin db caller then
          { ur with approval_status := newStatus } else ur)).map (fun ur => ur.user_id)
        = db.user_roles.map (fun ur => ur.user_id) := by
      rw [List.map_map]
      apply List.map_congr_left
      intro a _
      show (if a.user_id == targetUser && isSuperadmin db caller then
          { a with approval_status := newStatus } else a).user_id = a.user_id
      split <;> rfl
    rw [this]
    exact h

/-- C3 witness: the uniqueness theorem applied to the example state. -/
theorem user_roles_at_most_one_witness :
    rolesUnique approvalExampleDB
    ∧ (rolesUnique (insertUserRole approvalExampleDB
          { user_id := 3, role := Role.vendor, approval_status := ApprovalStatus.approved }).db
      ∧ ((∃ ur ∈ approvalExampleDB.user_roles, ur.user_id =
            ({ user_id := 3, role := Role.vendor, approval_status := ApprovalStatus.approved } : UserRoleRow).user_id) →
          insertUserRole approvalExampleDB
            { user_id := 3, role := Role.vendor, approval_status := ApprovalStatus.approved }
            = { db := approvalExampleDB, constraintError := true })
      ∧ rolesUnique (insertUserRoles approvalExampleDB
          [ { user_id := 1, role := Role.supplier, approval_status := ApprovalStatus.pending } ])
      ∧ rolesUnique (updateUserRoleStatus approvalExampleDB 1 1 ApprovalStatus.approved).db) :=
  ⟨by decide, user_roles_at_most_one approvalExampleDB
    [ { user_id := 1, role := Role.supplier, approval_status := ApprovalStatus.pending } ]
    { user_id := 3, role := Role.vendor, approval_status := ApprovalStatus.approved }
    1 1 ApprovalStatus.approved (by decide)⟩

/-- RLS `using` predicate for updates on `orders`: the policy "Users can
update their own orders" (`auth.uid() = user_id`) together with the policy
"Suppliers can update orders for their products" (a `suppliers` row with
the order's `supplier_id` owned by the caller exists). -/
def rlsOrderUpdate (db : DB) (caller : Nat) (o : OrderRow) : Bool :=
  o.user_id == caller
    || db.suppliers.any (fun s => s.id == o.supplier_id && s.user_id == caller)

/-- `handleUpdateOrderStatus` of the Orders page:
`supabase.from('orders').update({ status: newStatus }).eq('id', orderId)`.
The filter is the order id alone; the row's current status is not part of
the update predicate. -/
def handleUpdateOrderStatus (db : DB) (caller orderId : Nat)
    (newStatus : OrderStatus) : DB :=
  { db with orders := db.orders.map (fun o =>
      if o.id == orderId && rlsOrderUpdate db caller o then
        { o with status := newStatus }
      else o) }

/-- `handleCancelOrder` of the Orders page:
`supabase.from('orders').update({ status: 'cancelled' }).eq('id', orderId)`. -/
def handleCancelOrder (db : DB) (caller orderId : Nat) : DB :=
  handleUpdateOrderStatus db caller orderId OrderStatus.cancelled

/-- `canUpdateStatus` of the Orders page: for a supplier-role viewer the
action is offered exactly on `pending` and `confirmed` orders; for
everyone else it returns false. -/
def canUpdateStatus (role : Option Role) (o : OrderRow) : Bool :=
  if role == some Role.supplier then
    o.status == OrderStatus.pending || o.status == OrderStatus.confirmed
  else
    false

/-- `getNextStatus` of the Orders page. -/
def getNextStatus : OrderStatus → OrderStatus
  | OrderStatus.pending => OrderStatus.confirmed
  | OrderStatus.confirmed => OrderStatus.shipped
  | OrderStatus.shipped => OrderStatus.delivered
  | s => s

/-- The supplier advance action as wired on the Orders page: the button is
rendered for an order only when `canUpdateStatus` holds for the viewer's
role, and clicking it runs
`handleUpdateOrderStatus(order.id, getNextStatus(order.status))`. -/
def advanceOrder (db : DB) (caller orderId : Nat) : DB :=
  match db.orders.find? (fun o => o.id == orderId) with
  | some o =>
      if canUpdateStatus (roleOf db caller) o then
        handleUpdateOrderStatus db caller orderId (getNextStatus o.status)
      else db
  | none => db

/-- The purchaser cancel action as wired on the Orders page: a vendor's
order list is fetched with `.eq('user_id', user.id)`, the cancel button is
rendered only when the viewer's role is `vendor` and the listed order is
`pending`, and clicking it runs `handleCancelOrder(order.id)`. -/
def cancelOrder (db : DB) (caller orderId : Nat) : DB :=
  match db.orders.find? (fun o => o.id == orderId && o.user_id == caller) with
  | some o =>
      if roleOf db caller == some Role.vendor && o.status == OrderStatus.pending then
        handleCancelOrder db caller orderId
      else db
  | none => db

/-- The status of the order row with the given id. -/
def orderStatus (db : DB) (oid : Nat) : Option OrderStatus :=
  (db.orders.find? (fun o => o.id == oid)).map (fun o => o.status)

/-- The purchaser (`user_id`) of the order row with the given id. -/
def purchaserOf (db : DB) (oid : Nat) : Option Nat :=
  (db.orders.find? (fun o => o.id == oid)).map (fun o => o.user_id)

/-- Primary-key invariant of `orders`: row ids are unique. -/
def ordersIdUnique (db : DB) : Prop :=
  (db.orders.map (fun o => o.id)).Nodup

instance ordersIdUniqueDecidable (db : DB) : Decidable (ordersIdUnique db) := by
  unfold ordersIdUnique
  infer_instance

theorem find?_map_id_preserving (t : OrderRow → OrderRow)
    (ht : ∀ o, (t o).id = o.id) (l : List OrderRow) (x : Nat) :
    (l.map t).find? (fun o => o.id == x) =
      (l.find? (fun o => o.id == x)).map t := by
  induction l with
  | nil => rfl
  | cons a l ih =>
      have hpa : ((t a).id == x) = (a.id == x) := by rw [ht a]
      cases h : (a.id == x) with
      | true => simp [List.find?_cons, hpa, h]
      | false => simp [List.find?_cons, hpa, h, ih]

theorem orderStatus_handleUpdateOrderStatus (db : DB) (caller orderId : Nat)
    (newStatus : OrderStatus) (oid : Nat) :
    orderStatus (handleUpdateOrderStatus db caller orderId newStatus) oid =
      (db.orders.find? (fun o => o.id == oid)).map (fun o =>
        if o.id == orderId && rlsOrderUpdate db caller o then newStatus
        else o.status) := by
  unfold orderStatus handleUpdateOrderStatus
  rw [find?_map_id_preserving _ (fun o => by split <;> rfl)]
  cases hfind : db.orders.find? (fun o => o.id == oid) with
  | none => rfl
  | some o =>
      simp only [Option.map_some']
      by_cases hc : (o.id == orderId && rlsOrderUpdate db caller o) = true
      · rw [if_pos hc, if_pos hc]
      · rw [if_neg hc, if_neg hc]

theorem orderStatus_of_find? (db : DB) (oid : Nat) (o : OrderRow)
    (h : db.orders.find? (fun o => o.id == oid) = some o) :
    orderStatus db oid = some o.status := by
  unfold orderStatus
  rw [h]
  rfl

theorem orderStatus_update_other (db : DB) (caller orderId : Nat)
    (newStatus : OrderStatus) (oid : Nat) (hoid : oid ≠ orderId) :
    orderStatus (handleUpdateOrderStatus db caller orderId newStatus) oid =
      orderStatus db oid := by
  rw [orderStatus_handleUpdateOrderStatus]
  unfold orderStatus
  cases hf : db.orders.find? (fun o => o.id == oid) with
  | none => rfl
  | some o1 =>
      have hid1 : o1.id = oid := by
        have := List.find?_some hf
        exact beq_iff_eq.mp this
      have hne : (o1.id == orderId) = false := by
        rw [beq_eq_false_iff_ne, hid1]
        exact hoid
      simp only [Option.map_some']
      have hcond : (o1.id == orderId && rlsOrderUpdate db caller o1) = false := by
        rw [hne]
        rfl
      rw [hcond]
      simp

/-- C4: accepted order-status changes move only along one-step happy-path
edges (`pending` to `confirmed`, `confirmed` to `shipped`) for the
supplier advance action, or from `pending` to `cancelled` for the cancel
action, which fires only for the purchaser (with vendor role) of a still
pending order; every other request leaves the order's status unchanged.
The embedding is sequential: the row a guard inspects is the row the
update hits. -/
theorem order_status_transition_discipline (db : DB) (caller orderId oid : Nat)
    (hids : ordersIdUnique db) :
    (orderStatus (advanceOrder db caller orderId) oid = orderStatus db oid
      ∨ (orderStatus db oid = some OrderStatus.pending
          ∧ orderStatus (advanceOrder db caller orderId) oid = some OrderStatus.confirmed)
      ∨ (orderStatus db oid = some OrderStatus.confirmed
          ∧ orderStatus (advanceOrder db caller orderId) oid = some OrderStatus.shipped))
    ∧ (orderStatus (cancelOrder db caller orderId) oid = orderStatus db oid
      ∨ (orderStatus db oid = some OrderStatus.pending
          ∧ orderStatus (cancelOrder db caller orderId) oid = some OrderStatus.cancelled
          ∧ purchaserOf db oid = some caller
          ∧ roleOf db caller = some Role.vendor)) := by
  constructor
  · unfold advanceOrder
    cases hfind : db.orders.find? (fun o => o.id == orderId) with
    | none => exact Or.inl rfl
    | some o0 =>
        dsimp only
        by_cases hcan : canUpdateStatus (roleOf db caller) o0 = true
        · rw [if_pos hcan]
          by_cases hoid : oid = orderId
          · subst hoid
            have hid0' := List.find?_some hfind
            have hid0 : (o0.id == oid) = true := hid0'
            have hbefore := orderStatus_of_find? db oid o0 hfind
            rw [orderStatus_handleUpdateOrderStatus, hfind]
            simp only [Option.map_some']
            by_cases hrls : rlsOrderUpdate db caller o0 = true
            · have hcond : (o0.id == oid && rlsOrderUpdate db caller o0) = true := by
                rw [hid0, hrls]
                rfl
              rw [if_pos hcond]
              unfold canUpdateStatus at hcan
              by_cases hrole : (roleOf db caller == some Role.supplier) = true
              · rw [if_pos hrole] at hcan
                simp only [Bool.or_eq_true] at hcan
                rcases hcan with hp | hcf
                · have hp' : o0.status = OrderStatus.pending := beq_iff_eq.mp hp
                  rw [hp'] at hbefore ⊢
                  exact Or.inr (Or.inl ⟨hbefore, rfl⟩)
                · have hc' : o0.status = OrderStatus.confirmed := beq_iff_eq.mp hcf
                  rw [hc'] at hbefore ⊢
                  exact Or.inr (Or.inr ⟨hbefore, rfl⟩)
              · rw [if_neg hrole] at hcan
                exact absurd hcan (by simp)
            · have hcond : (o0.id == oid && rlsOrderUpdate db caller o0) = false := by
                rw [Bool.and_eq_false_iff]
                right
                exact Bool.not_eq_true _ ▸ (by simpa using hrls)
              rw [if_neg (by rw [hcond]; simp)]
              rw [hbefore]
              exact Or.inl rfl
          · exact Or.inl (orderStatus_update_other db caller orderId _ oid hoid)
        · rw [if_neg hcan]
          exact Or.inl rfl
  · unfold cancelOrder
    cases hfind : db.orders.find? (fun o => o.id == orderId && o.user_id == caller) with
    | none => exact Or.inl rfl
    | some o0 =>
        dsimp only
        by_cases hg : (roleOf db caller == some Role.vendor
            && o0.status == OrderStatus.pending) = true
        · rw [if_pos hg]
          unfold handleCancelOrder
          have hpred := List.find?_some hfind
          have hmem0 := List.mem_of_find?_eq_some hfind
          simp only [Bool.and_eq_true] at hpred hg
          obtain ⟨hid0, huser0⟩ := hpred
          obtain ⟨hrole, hpend⟩ := hg
          by_cases hoid : oid = orderId
          · subst hoid
            cases hf2 : db.orders.find? (fun o => o.id == oid) with
            | none =>
                exfalso
                have hnone := List.find?_eq_none.mp hf2 o0 hmem0
                exact hnone hid0
            | some o1 =>
                have hid1' := List.find?_some hf2
                have hid1 : (o1.id == oid) = true := hid1'
                have hmem1 := List.mem_of_find?_eq_some hf2
                have heq : o1 = o0 := by
                  apply List.inj_on_of_nodup_map hids hmem1 hmem0
                  rw [beq_iff_eq.mp hid1, beq_iff_eq.mp hid0]
                subst heq
                have hbefore := orderStatus_of_find? db oid o1 hf2
                rw [beq_iff_eq.mp hpend] at hbefore
                rw [orderStatus_handleUpdateOrderStatus, hf2]
                simp only [Option.map_some']
                have hrls : rlsOrderUpdate db caller o1 = true := by
                  unfold rlsOrderUpdate
                  rw [huser0]
                  rfl
                have hcond : (o1.id == oid && rlsOrderUpdate db caller o1) = true := by
                  rw [hid1, hrls]
                  rfl
                rw [if_pos hcond]
                refine Or.inr ⟨hbefore, rfl, ?_, ?_⟩
                · unfold purchaserOf
                  rw [hf2]
                  simp only [Option.map_some']
                  rw [beq_iff_eq.mp huser0]
                · exact beq_iff_eq.mp hrole
          · exact Or.inl (orderStatus_update_other db caller orderId _ oid hoid)
        · rw [if_neg hg]
          exact Or.inl rfl

/-- An order book for exercising the transition discipline: vendor 2
purchased order 1 from supplier account 1 (suppliers row 10); the order
is pending. -/
def orderExampleDB : DB :=
  { user_roles :=
      [ { user_id := 1, role := Role.supplier, approval_status := ApprovalStatus.approved }
      , { user_id := 2, role := Role.vendor, approval_status := ApprovalStatus.approved } ]
    supplier_profiles := []
    suppliers :=
      [ { id := 10, user_id := 1, name := "Acme", contact_email := "a@b.c",
          address := none, status := "active" } ]
    products :=
      [ { id := 100, name := "Widget", unit_price := 100, stock_quantity := 50,
          min_stock_level := 10, status := "active", supplier_id := 10 } ]
    orders :=
      [ { id := 1, user_id := 2, product_id := 100, supplier_id := 10,
          quantity := 1, unit_price := 100, total_amount := 100,
          status := OrderStatus.pending } ] }

/-- C4 witness: the transition-discipline theorem applied to the example
order book, where the order ids are unique. -/
theorem order_status_transition_discipline_witness :
    ordersIdUnique orderExampleDB
    ∧ ((orderStatus (advanceOrder orderExampleDB 1 1) 1 = orderStatus orderExampleDB 1
      ∨ (orderStatus orderExampleDB 1 = some OrderStatus.pending
          ∧ orderStatus (advanceOrder orderExampleDB 1 1) 1 = some OrderStatus.confirmed)
      ∨ (orderStatus orderExampleDB 1 = some OrderStatus.confirmed
          ∧ orderStatus (advanceOrder orderExampleDB 1 1) 1 = some OrderStatus.shipped))
    ∧ (orderStatus (cancelOrder orderExampleDB 1 1) 1 = orderStatus orderExampleDB 1
      ∨ (orderStatus orderExampleDB 1 = some OrderStatus.pending
          ∧ orderStatus (cancelOrder orderExampleDB 1 1) 1 = some OrderStatus.cancelled
          ∧ purchaserOf orderExampleDB 1 = some 1
          ∧ roleOf orderExampleDB 1 = some Role.vendor))) :=
  ⟨by decide, order_status_transition_discipline orderExampleDB 1 1 1 (by decide)⟩

/-- An order book whose single order is already `delivered`; vendor 2 is
its purchaser. -/
def deliveredOrderDB : DB :=
  { user_roles :=
      [ { user_id := 1, role := Role.supplier, approval_status := ApprovalStatus.approved }
      , { user_id := 2, role := Role.vendor, approval_status := ApprovalStatus.approved } ]
    supplier_profiles := []
    suppliers :=
      [ { id := 10, user_id := 1, name := "Acme", contact_email := "a@b.c",
          address := none, status := "active" } ]
    products := []
    orders :=
      [ { id := 1, user_id := 2, product_id := 100, supplier_id := 10,
          quantity := 1, unit_price := 100, total_amount := 100,
          status := OrderStatus.delivered } ] }

/-- C5: the order-status update carries no compare-and-swap discipline:
the update predicate is the order id alone, so the write is applied even
when the row's current status (`delivered` here) is not the expected
predecessor (`pending`) of the requested status (`confirmed`); the row is
moved backwards from `delivered` to `confirmed`. -/
theorem handleUpdateOrderStatus_no_cas :
    orderStatus deliveredOrderDB 1 = some OrderStatus.delivered
    ∧ orderStatus (handleUpdateOrderStatus deliveredOrderDB 2 1 OrderStatus.confirmed) 1
        = some OrderStatus.confirmed := by
  decide

/-- An order book whose single order is `shipped`, owned by supplier
account 1 through suppliers row 10. -/
def shippedOrderDB : DB :=
  { user_roles :=
      [ { user_id := 1, role := Role.supplier, approval_status := ApprovalStatus.approved }
      , { user_id := 2, role := Role.vendor, approval_status := ApprovalStatus.approved } ]
    supplier_profiles := []
    suppliers :=
      [ { id := 10, user_id := 1, name := "Acme", contact_email := "a@b.c",
          address := none, status := "active" } ]
    products := []
    orders :=
      [ { id := 1, user_id := 2, product_id := 100, supplier_id := 10,
          quantity := 1, unit_price := 100, total_amount := 100,
          status := OrderStatus.shipped } ] }

/-- C6 counterexample: the owning supplier's advance action does not move
a `shipped` order to `delivered`: `canUpdateStatus` is false on `shipped`,
so the action leaves the database unchanged. -/
theorem advanceOrder_shipped_not_delivered :
    roleOf shippedOrderDB 1 = some Role.supplier
    ∧ orderStatus shippedOrderDB 1 = some OrderStatus.shipped
    ∧ advanceOrder shippedOrderDB 1 1 = shippedOrderDB
    ∧ orderStatus (advanceOrder shippedOrderDB 1 1) 1 = some OrderStatus.shipped := by
  decide

/-- Folding a batch of advance actions (caller, order id). -/
def advanceMany (db : DB) (ops : List (Nat × Nat)) : DB :=
  ops.foldl (fun d p => advanceOrder d p.1 p.2) db

theorem advanceOrder_no_delivered (db : DB) (caller orderId : Nat)
    (hdel : ∀ o ∈ db.orders, o.status ≠ OrderStatus.delivered) :
    ∀ o ∈ (advanceOrder db caller orderId).orders,
      o.status ≠ OrderStatus.delivered := by
  unfold advanceOrder
  cases hfind : db.orders.find? (fun o => o.id == orderId) with
  | none => exact hdel
  | some o0 =>
      dsimp only
      by_cases hcan : canUpdateStatus (roleOf db caller) o0 = true
      · rw [if_pos hcan]
        have hnext : getNextStatus o0.status ≠ OrderStatus.delivered := by
          unfold canUpdateStatus at hcan
          by_cases hrole : (roleOf db caller == some Role.supplier) = true
          · rw [if_pos hrole] at hcan
            simp only [Bool.or_eq_true] at hcan
            rcases hcan with hp | hcf
            · rw [beq_iff_eq.mp hp]
              decide
            · rw [beq_iff_eq.mp hcf]
              decide
          · rw [if_neg hrole] at hcan
            exact absurd hcan (by simp)
        intro o ho
        unfold handleUpdateOrderStatus at ho
        simp only [List.mem_map] at ho
        rcases ho with ⟨a, ha, rfl⟩
        by_cases hc : (a.id == orderId && rlsOrderUpdate db caller a) = true
        · rw [if_pos hc]
          exact hnext
        · rw [if_neg hc]
          exact hdel a ha
      · rw [if_neg hcan]
        exact hdel

theorem advanceMany_no_delivered (db : DB) (ops : List (Nat × Nat))
    (hdel : ∀ o ∈ db.orders, o.status ≠ OrderStatus.delivered) :
    ∀ o ∈ (advanceMany db ops).orders, o.status ≠ OrderStatus.delivered := by
  induction ops generalizing db with
  | nil => exact hdel
  | cons p ps ih => exact ih _ (advanceOrder_no_delivered db p.1 p.2 hdel)

/-- C6 (amended): the supplier advance action moves an order exactly one
step, but only out of `pending` (to `confirmed`) and out of `confirmed`
(to `shipped`); in every other state — in particular `shipped` — the
status is left unchanged, so no sequence of advance actions ever makes an
order `delivered` (the `delivered` state is unreachable through the
supplier advance action). -/
theorem advanceOrder_one_step (db : DB) (caller orderId : Nat)
    (o0 : OrderRow) (ops : List (Nat × Nat))
    (hfind : db.orders.find? (fun o => o.id == orderId) = some o0)
    (hrole : roleOf db caller = some Role.supplier)
    (hrls : rlsOrderUpdate db caller o0 = true)
    (hdel : ∀ o ∈ db.orders, o.status ≠ OrderStatus.delivered) :
    orderStatus (advanceOrder db caller orderId) orderId =
      some (if o0.status == OrderStatus.pending then OrderStatus.confirmed
            else if o0.status == OrderStatus.confirmed then OrderStatus.shipped
            else o0.status)
    ∧ (∀ o ∈ (advanceMany db ops).orders, o.status ≠ OrderStatus.delivered) := by
  refine ⟨?_, advanceMany_no_delivered db ops hdel⟩
  unfold advanceOrder
  rw [hfind]
  dsimp only
  have hid0' := List.find?_some hfind
  have hid0 : (o0.id == orderId) = true := hid0'
  cases hs : o0.status with
  | pending =>
      have hcan : canUpdateStatus (roleOf db caller) o0 = true := by
        unfold canUpdateStatus
        rw [hrole]
        simp [hs]
      rw [if_pos hcan]
      rw [orderStatus_handleUpdateOrderStatus, hfind]
      simp only [Option.map_some']
      rw [if_pos (by rw [hid0, hrls]; rfl)]
      rfl
  | confirmed =>
      have hcan : canUpdateStatus (roleOf db caller) o0 = true := by
        unfold canUpdateStatus
        rw [hrole]
        simp [hs]
      rw [if_pos hcan]
      rw [orderStatus_handleUpdateOrderStatus, hfind]
      simp only [Option.map_some']
      rw [if_pos (by rw [hid0, hrls]; rfl)]
      rfl
  | shipped =>
      have hcan : canUpdateStatus (roleOf db caller) o0 = false := by
        unfold canUpdateStatus
        rw [hrole]
        simp [hs]
      rw [if_neg (by rw [hcan]; simp)]
      rw [orderStatus_of_find? db orderId o0 hfind, hs]
      rfl
  | delivered =>
      exact absurd hs (hdel o0 (List.mem_of_find?_eq_some hfind))
  | cancelled =>
      have hcan : canUpdateStatus (roleOf db caller) o0 = false := by
        unfold canUpdateStatus
        rw [hrole]
        simp [hs]
      rw [if_neg (by rw [hcan]; simp)]
      rw [orderStatus_of_find? db orderId o0 hfind, hs]
      rfl

/-- C6 witness: the one-step theorem applied to the pending example
order, which the advance actions of the batch never bring to `delivered`. -/
theorem advanceOrder_one_step_witness :
    (orderExampleDB.orders.find? (fun o => o.id == 1) = some
        { id := 1, user_id := 2, product_id := 100, supplier_id := 10,
          quantity := 1, unit_price := 100, total_amount := 100,
          status := OrderStatus.pending }
      ∧ roleOf orderExampleDB 1 = some Role.supplier
      ∧ rlsOrderUpdate orderExampleDB 1
          { id := 1, user_id := 2, product_id := 100, supplier_id := 10,
            quantity := 1, unit_price := 100, total_amount := 100,
            status := OrderStatus.pending } = true
      ∧ (∀ o ∈ orderExampleDB.orders, o.status ≠ OrderStatus.delivered))
    ∧ (orderStatus (advanceOrder orderExampleDB 1 1) 1 =
        some (if OrderStatus.pending == OrderStatus.pending then OrderStatus.confirmed
              else if OrderStatus.pending == OrderStatus.confirmed then OrderStatus.shipped
              else OrderStatus.pending)
      ∧ (∀ o ∈ (advanceMany orderExampleDB [(1, 1), (1, 1), (1, 1)]).orders,
          o.status ≠ OrderStatus.delivered)) :=
  ⟨⟨by decide, by decide, by decide, by decide⟩,
    advanceOrder_one_step orderExampleDB 1 1
      { id := 1, user_id := 2, product_id := 100, supplier_id := 10,
        quantity := 1, unit_price := 100, total_amount := 100,
        status := OrderStatus.pending }
      [(1, 1), (1, 1), (1, 1)] (by decide) (by decide) (by decide) (by decide)⟩

/-- The vendor branch of `fetchProducts` on the Products page builds its
query as `query.eq('status', 'active')` and nothing else: the
supplier-approval condition announced by the comment above it has been
removed ("FOR DEBUGGING: Show ALL active products to vendors"). -/
def vendorProductsQuery (db : DB) : List ProductRow :=
  db.products.filter (fun p => p.status == "active")

/-- What `fetchProducts` finally displays: `setProducts(finalProducts || [])`,
where `finalProducts` is an unfiltered select over `products`; the result
of the role-specific query is discarded. -/
def fetchProductsFinal (db : DB) : List ProductRow :=
  db.products

/-- A marketplace whose only supplier (account 1) is still `pending`,
with one active product, browsed by the approved vendor 2. -/
def unapprovedSupplierDB : DB :=
  { user_roles :=
      [ { user_id := 1, role := Role.supplier, approval_status := ApprovalStatus.pending }
      , { user_id := 2, role := Role.vendor, approval_status := ApprovalStatus.approved } ]
    supplier_profiles := []
    suppliers :=
      [ { id := 10, user_id := 1, name := "Acme", contact_email := "a@b.c",
          address := none, status := "active" } ]
    products :=
      [ { id := 100, name := "Widget", unit_price := 100, stock_quantity := 50,
          min_stock_level := 10, status := "active", supplier_id := 10 } ]
    orders := [] }

/-- C7: the vendor product listing is not restricted to approved
suppliers and no forbidden outcome is produced: with supplier 1 still
`pending`, vendor 2's query and the displayed list both contain the
pending supplier's product, as an ordinary (non-error) result. -/
theorem fetchProducts_ignores_supplier_approval :
    roleOf unapprovedSupplierDB 2 = some Role.vendor
    ∧ approvalOf unapprovedSupplierDB 1 = some ApprovalStatus.pending
    ∧ ({ id := 100, name := "Widget", unit_price := 100, stock_quantity := 50,
          min_stock_level := 10, status := "active", supplier_id := 10 } : ProductRow)
        ∈ vendorProductsQuery unapprovedSupplierDB
    ∧ fetchProductsFinal unapprovedSupplierDB = unapprovedSupplierDB.products := by
  decide

/-- Uniqueness invariant of `suppliers`: at most one row per account
(`user_id uuid references auth.users(id) unique not null`). -/
def suppliersUnique (db : DB) : Prop :=
  (db.suppliers.map (fun s => s.user_id)).Nodup

instance suppliersUniqueDecidable (db : DB) : Decidable (suppliersUnique db) := by
  unfold suppliersUnique
  infer_instance

/-- How many `suppliers` rows an account owns. -/
def supplierCount (db : DB) (uid : Nat) : Nat :=
  (db.suppliers.filter (fun s => s.user_id == uid)).length

/-- The `suppliers` row that lazy provisioning synthesizes from a
supplier profile: `name` from `business_name`, `contact_email` from
`contact_number`, `address` from `business_address`, status `'active'`. -/
def synthesizedSupplier (uid freshId : Nat) (p : SupplierProfileRow) : SupplierRow :=
  { id := freshId, user_id := uid, name := p.business_name,
    contact_email := p.contact_number,
    address := some p.business_address,
    status := "active" }

/-- `ensureSupplierRecord` of the Products page: look up the caller's
`suppliers` row; when absent, read the caller's `supplier_profiles` row
(absence throws, caught as `none`), and insert the synthesized row.
`freshId` stands for the generated uuid of an inserted row; an insert
rejected by the unique constraint on `suppliers.user_id` is caught and
surfaced as `none` like any other failure of the source's try/catch. -/
def ensureSupplierRecord (db : DB) (uid freshId : Nat) : DB × Option SupplierRow :=
  match db.suppliers.find? (fun s => s.user_id == uid) with
  | some s => (db, some s)
  | none =>
      match db.supplier_profiles.find? (fun p => p.user_id == uid) with
      | none => (db, none)
      | some p =>
          if db.suppliers.any (fun s => s.user_id == uid) then
            (db, none)
          else
            ({ db with suppliers := db.suppliers ++ [synthesizedSupplier uid freshId p] },
              some (synthesizedSupplier uid freshId p))

theorem find?_append_singleton {α : Type} (l : List α) (a : α) (p : α → Bool)
    (h : l.find? p = none) (hp : p a = true) :
    (l ++ [a]).find? p = some a := by
  induction l with
  | nil => simp [List.find?_cons, hp]
  | cons b l ih =>
      rw [List.find?_cons] at h
      cases hb : p b with
      | true => rw [hb] at h; exact absurd h (by simp)
      | false =>
          rw [hb] at h
          rw [List.cons_append, List.find?_cons, hb]
          exact ih h

theorem filter_count_le_one (l : List SupplierRow) (uid : Nat)
    (h : (l.map (fun s => s.user_id)).Nodup) :
    (l.filter (fun s => s.user_id == uid)).length ≤ 1 := by
  induction l with
  | nil => simp
  | cons a l ih =>
      simp only [List.map_cons, List.nodup_cons] at h
      obtain ⟨hna, hre⟩ := h
      by_cases ha : (a.user_id == uid) = true
      · have hnil : l.filter (fun s => s.user_id == uid) = [] := by
          rw [List.filter_eq_nil_iff]
          intro x hx hxx
          apply hna
          rw [List.mem_map]
          exact ⟨x, hx, by rw [beq_iff_eq.mp hxx, beq_iff_eq.mp ha]⟩
        have hstep : (a :: l).filter (fun s => s.user_id == uid) =
            a :: l.filter (fun s => s.user_id == uid) := by
          simp [List.filter_cons, ha]
        rw [hstep, hnil]
        simp
      · have hstep : (a :: l).filter (fun s => s.user_id == uid) =
            l.filter (fun s => s.user_id == uid) := by
          simp [List.filter_cons, ha]
        rw [hstep]
        exact ih hre

theorem ensureSupplierRecord_found (db : DB) (uid freshId : Nat) (s : SupplierRow)
    (hfind : db.suppliers.find? (fun s => s.user_id == uid) = some s) :
    ensureSupplierRecord db uid freshId = (db, some s) := by
  unfold ensureSupplierRecord
  rw [hfind]

theorem ensureSupplierRecord_no_profile (db : DB) (uid freshId : Nat)
    (hfind : db.suppliers.find? (fun s => s.user_id == uid) = none)
    (hprof : db.supplier_profiles.find? (fun p => p.user_id == uid) = none) :
    ensureSupplierRecord db uid freshId = (db, none) := by
  unfold ensureSupplierRecord
  rw [hfind, hprof]

theorem ensureSupplierRecord_insert (db : DB) (uid freshId : Nat)
    (p : SupplierProfileRow)
    (hfind : db.suppliers.find? (fun s => s.user_id == uid) = none)
    (hprof : db.supplier_profiles.find? (fun q => q.user_id == uid) = some p) :
    ensureSupplierRecord db uid freshId =
      ({ db with suppliers := db.suppliers ++ [synthesizedSupplier uid freshId p] },
        some (synthesizedSupplier uid freshId p)) := by
  have hany : db.suppliers.any (fun s => s.user_id == uid) = false := by
    rw [List.any_eq_false]
    intro x hx
    exact List.find?_eq_none.mp hfind x hx
  unfold ensureSupplierRecord
  rw [hfind, hprof]
  dsimp only
  rw [if_neg (by rw [hany]; simp)]

/-- C8: `ensureSupplierRecord` is idempotent (a second call leaves the
state produced by the first call untouched); under the unique constraint
there is at most one `suppliers` row for the account afterwards; and when
the row was absent and a profile exists, the returned row is synthesized
from the profile with name from business_name, contact_email from
contact_number, address from business_address and status 'active'. -/
theorem ensureSupplierRecord_idempotent (db : DB) (uid f1 f2 : Nat)
    (h : suppliersUnique db) :
    (ensureSupplierRecord (ensureSupplierRecord db uid f1).1 uid f2).1 =
      (ensureSupplierRecord db uid f1).1
    ∧ supplierCount (ensureSupplierRecord db uid f1).1 uid ≤ 1
    ∧ (∀ p, db.suppliers.find? (fun s => s.user_id == uid) = none →
        db.supplier_profiles.find? (fun q => q.user_id == uid) = some p →
        (ensureSupplierRecord db uid f1).2 = some (synthesizedSupplier uid f1 p)) := by
  cases hfind : db.suppliers.find? (fun s => s.user_id == uid) with
  | some s =>
      rw [ensureSupplierRecord_found db uid f1 s hfind]
      refine ⟨?_, filter_count_le_one _ uid h, ?_⟩
      · rw [ensureSupplierRecord_found db uid f2 s hfind]
      · intro p hnone _
        exact absurd hnone (by simp)
  | none =>
      cases hprof : db.supplier_profiles.find? (fun q => q.user_id == uid) with
      | none =>
          rw [ensureSupplierRecord_no_profile db uid f1 hfind hprof]
          refine ⟨?_, filter_count_le_one _ uid h, ?_⟩
          · rw [ensureSupplierRecord_no_profile db uid f2 hfind hprof]
          · intro p _ hsome
            exact absurd hsome (by simp)
      | some p =>
          rw [ensureSupplierRecord_insert db uid f1 p hfind hprof]
          have hrowfind :
              (db.suppliers ++ [synthesizedSupplier uid f1 p]).find?
                (fun s => s.user_id == uid) = some (synthesizedSupplier uid f1 p) :=
            find?_append_singleton _ _ _ hfind (by simp [synthesizedSupplier])
          refine ⟨?_, ?_, ?_⟩
          · exact congrArg Prod.fst
              (ensureSupplierRecord_found _ uid f2 _ hrowfind)
          · unfold supplierCount
            dsimp only
            rw [List.filter_append]
            have hnil : db.suppliers.filter (fun s => s.user_id == uid) = [] := by
              rw [List.filter_eq_nil_iff]
              intro x hx
              exact List.find?_eq_none.mp hfind x hx
            rw [hnil]
            simp [synthesizedSupplier]
          · intro q hn hq
            injection hq with hpq
            rw [hpq]

/-- A state with a supplier profile for account 1 but no `suppliers` row
yet. -/
def lazyProvisionDB : DB :=
  { user_roles :=
      [ { user_id := 1, role := Role.supplier, approval_status := ApprovalStatus.approved } ]
    supplier_profiles :=
      [ { user_id := 1, full_name := "Jo", business_name := "Acme",
          business_type := "Mfg", business_address := "1 Road",
          contact_number := "555" } ]
    suppliers := []
    products := []
    orders := [] }

/-- C8 witness: the idempotence theorem applied to a state with a profile
and no `suppliers` row. -/
theorem ensureSupplierRecord_idempotent_witness :
    suppliersUnique lazyProvisionDB
    ∧ ((ensureSupplierRecord (ensureSupplierRecord lazyProvisionDB 1 7).1 1 8).1 =
        (ensureSupplierRecord lazyProvisionDB 1 7).1
      ∧ supplierCount (ensureSupplierRecord lazyProvisionDB 1 7).1 1 ≤ 1
      ∧ (∀ p, lazyProvisionDB.suppliers.find? (fun s => s.user_id == 1) = none →
          lazyProvisionDB.supplier_profiles.find? (fun q => q.user_id == 1) = some p →
          (ensureSupplierRecord lazyProvisionDB 1 7).2 = some
            { id := 7, user_id := 1, name := p.business_name,
              contact_email := p.contact_number,
              address := some p.business_address, status := "active" })) :=
  ⟨by decide, ensureSupplierRecord_idempotent lazyProvisionDB 1 7 8 (by decide)⟩

/-- `handlePlaceOrder` of the Products page: re-read the product's
`suppliers` row by id; if it is absent no order is inserted (an error
toast is shown); otherwise insert an order with quantity 1, the product's
unit price, `total_amount` equal to that same unit price, and status
`'pending'`.  `freshId` stands for the generated uuid of the inserted
row; the returned flag tells whether an order was placed. -/
def handlePlaceOrder (db : DB) (caller : Nat) (product : ProductRow)
    (freshId : Nat) : DB × Bool :=
  match db.suppliers.find? (fun s => s.id == product.supplier_id) with
  | none => (db, false)
  | some s =>
      ({ db with orders := db.orders ++
          [ { id := freshId, user_id := caller, product_id := product.id,
              supplier_id := s.id, quantity := 1,
              unit_price := product.unit_price,
              total_amount := product.unit_price,
              status := OrderStatus.pending } ] }, true)

/-- C9: every order row present after `handlePlaceOrder` is either an old
row or the newly created one, and the new row satisfies
total_amount = quantity × unit_price (with quantity 1 and the product's
unit price) and has status `pending`. -/
theorem handlePlaceOrder_total (db : DB) (caller : Nat) (product : ProductRow)
    (freshId : Nat) :
    ∀ o ∈ (handlePlaceOrder db caller product freshId).1.orders,
      o ∈ db.orders
      ∨ (o.total_amount = o.quantity * o.unit_price
          ∧ o.status = OrderStatus.pending
          ∧ o.quantity = 1
          ∧ o.unit_price = product.unit_price) := by
  unfold handlePlaceOrder
  cases hfind : db.suppliers.find? (fun s => s.id == product.supplier_id) with
  | none => exact fun o ho => Or.inl ho
  | some s =>
      intro o ho
      dsimp only at ho
      rw [List.mem_append] at ho
      rcases ho with h | h
      · exact Or.inl h
      · rw [List.mem_singleton] at h
        subst h
        exact Or.inr ⟨(one_mul product.unit_price).symm, rfl, rfl, rfl⟩

/-- C9 witness: placing an order for the example product (unit price 100)
creates the row with total_amount 100, quantity 1 and status pending. -/
theorem handlePlaceOrder_total_witness :
    ({ id := 55, user_id := 2, product_id := 100, supplier_id := 10,
        quantity := 1, unit_price := 100, total_amount := 100,
        status := OrderStatus.pending } : OrderRow)
      ∈ (handlePlaceOrder orderExampleDB 2
          { id := 100, name := "Widget", unit_price := 100, stock_quantity := 50,
            min_stock_level := 10, status := "active", supplier_id := 10 } 55).1.orders
    ∧ (({ id := 55, user_id := 2, product_id := 100, supplier_id := 10,
          quantity := 1, unit_price := 100, total_amount := 100,
          status := OrderStatus.pending } : OrderRow) ∈ orderExampleDB.orders
      ∨ ((100 : Int) = 1 * 100
          ∧ OrderStatus.pending = OrderStatus.pending
          ∧ (1 : Int) = 1
          ∧ (100 : Int) = 100)) :=
  ⟨by decide, handlePlaceOrder_total orderExampleDB 2
      { id := 100, name := "Widget", unit_price := 100, stock_quantity := 50,
        min_stock_level := 10, status := "active", supplier_id := 10 } 55
      { id := 55, user_id := 2, product_id := 100, supplier_id := 10,
        quantity := 1, unit_price := 100, total_amount := 100,
        status := OrderStatus.pending } (by decide)⟩

/-- Insert into `suppliers` under the unique constraint on
`suppliers.user_id`. -/
def insertSupplier (db : DB) (row : SupplierRow) : InsertOutcome :=
  if db.suppliers.any (fun s => s.user_id == row.user_id) then
    { db := db, constraintError := true }
  else
    { db := { db with suppliers := db.suppliers ++ [row] },
      constraintError := false }

/-- The trigger function `create_supplier_for_user`, fired `after insert
on supplier_profiles`: inserts into `suppliers` the values
`(new.user_id, select business_name from supplier_profiles where user_id
= new.user_id, select contact_number ...)`; `address` is not set and
`status` takes its column default `'active'`.  The subselects read the
profile row that was just inserted (the empty-string default of the
model is unreachable because the trigger only fires after that insert). -/
def create_supplier_for_user (db : DB) (uid freshId : Nat) : InsertOutcome :=
  insertSupplier db
    { id := freshId, user_id := uid,
      name := ((db.supplier_profiles.find? (fun p => p.user_id == uid)).map
        (fun p => p.business_name)).getD "",
      contact_email := ((db.supplier_profiles.find? (fun p => p.user_id == uid)).map
        (fun p => p.contact_number)).getD "",
      address := none, status := "active" }

/-- Insert into `supplier_profiles` (unique on `user_id`); on success the
`create_supplier_trigger` fires `create_supplier_for_user` inside the
same statement, so a failure of the trigger's insert fails the whole
profile insert. -/
def insertSupplierProfileWithTrigger (db : DB) (p : SupplierProfileRow)
    (freshSupplierId : Nat) : InsertOutcome :=
  if db.supplier_profiles.any (fun q => q.user_id == p.user_id) then
    { db := db, constraintError := true }
  else
    let db1 := { db with supplier_profiles := db.supplier_profiles ++ [p] }
    let res := create_supplier_for_user db1 p.user_id freshSupplierId
    if res.constraintError then { db := db, constraintError := true } else res

/-- The supplier branch of `signUp` after the role insert: insert the
supplier profile (which fires the trigger), then explicitly insert a
`suppliers` row "for backward compatibility" with name ← business_name,
contact_email ← contact_number, address ← business_address, status
`'active'`; the source does not check the result of this second insert.
Returns the final state and the constraint-error flag of the explicit
insert. -/
def signUpSupplierRecords (db : DB) (p : SupplierProfileRow)
    (profSupplierId explicitSupplierId : Nat) : DB × Bool :=
  let r1 := insertSupplierProfileWithTrigger db p profSupplierId
  let r2 := insertSupplier r1.db
    { id := explicitSupplierId, user_id := p.user_id,
      name := p.business_name, contact_email := p.contact_number,
      address := some p.business_address, status := "active" }
  (r2.db, r2.constraintError)

/-- C10: for a fresh supplier account, inserting the profile fires the
trigger, which creates the `suppliers` row copying name ← business_name
and contact_email ← contact_number; the explicit `suppliers` insert that
`signUp` performs next collides with that row on the unique
`suppliers.user_id` and fails with a ConstraintError, so exactly one
`suppliers` row (the trigger's) exists for the account afterwards. -/
theorem signUp_supplier_trigger_collision (db : DB) (p : SupplierProfileRow)
    (f1 f2 : Nat)
    (h1 : db.supplier_profiles.any (fun q => q.user_id == p.user_id) = false)
    (h2 : db.suppliers.any (fun s => s.user_id == p.user_id) = false) :
    (signUpSupplierRecords db p f1 f2).2 = true
    ∧ (signUpSupplierRecords db p f1 f2).1.suppliers =
        db.suppliers ++
          [ { id := f1, user_id := p.user_id, name := p.business_name,
              contact_email := p.contact_number, address := none,
              status := "active" } ]
    ∧ supplierCount (signUpSupplierRecords db p f1 f2).1 p.user_id = 1 := by
  have hprofnone : db.supplier_profiles.find? (fun q => q.user_id == p.user_id) = none := by
    rw [List.find?_eq_none]
    intro x hx
    exact List.any_eq_false.mp h1 x hx
  have hproffind :
      (db.supplier_profiles ++ [p]).find? (fun q => q.user_id == p.user_id) = some p :=
    find?_append_singleton _ _ _ hprofnone (by simp)
  have hres : create_supplier_for_user
      { db with supplier_profiles := db.supplier_profiles ++ [p] } p.user_id f1 =
      { db := { db with
          supplier_profiles := db.supplier_profiles ++ [p]
          suppliers := db.suppliers ++
            [ { id := f1, user_id := p.user_id, name := p.business_name,
                contact_email := p.contact_number, address := none,
                status := "active" } ] },
        constraintError := false } := by
    unfold create_supplier_for_user insertSupplier
    dsimp only
    rw [hproffind]
    rw [if_neg (by rw [h2]; simp)]
    rfl
  have hflow : signUpSupplierRecords db p f1 f2 =
      ({ db with
          supplier_profiles := db.supplier_profiles ++ [p]
          suppliers := db.suppliers ++
            [ { id := f1, user_id := p.user_id, name := p.business_name,
                contact_email := p.contact_number, address := none,
                status := "active" } ] }, true) := by
    unfold signUpSupplierRecords insertSupplierProfileWithTrigger
    rw [if_neg (by rw [h1]; simp)]
    dsimp only
    rw [hres]
    dsimp only
    rw [if_neg (by simp)]
    unfold insertSupplier
    dsimp only
    rw [if_pos (by rw [List.any_append]; simp)]
  rw [hflow]
  refine ⟨rfl, rfl, ?_⟩
  unfold supplierCount
  dsimp only
  rw [List.filter_append]
  have hnil : db.suppliers.filter (fun s => s.user_id == p.user_id) = [] := by
    rw [List.filter_eq_nil_iff]
    intro x hx
    exact List.any_eq_false.mp h2 x hx
  rw [hnil]
  simp

/-- A fresh database and a concrete supplier profile for the trigger
collision witness. -/
def freshSignUpProfile : SupplierProfileRow :=
  { user_id := 1, full_name := "Jo", business_name := "Acme",
    business_type := "Mfg", business_address := "1 Road",
    contact_number := "555" }

/-- C10 witness: the trigger-collision theorem applied to an empty
database and the concrete profile. -/
theorem signUp_supplier_trigger_collision_witness :
    (DB.mk [] [] [] [] []).supplier_profiles.any
        (fun q => q.user_id == freshSignUpProfile.user_id) = false
    ∧ (DB.mk [] [] [] [] []).suppliers.any
        (fun s => s.user_id == freshSignUpProfile.user_id) = false
    ∧ ((signUpSupplierRecords (DB.mk [] [] [] [] []) freshSignUpProfile 7 8).2 = true
      ∧ (signUpSupplierRecords (DB.mk [] [] [] [] []) freshSignUpProfile 7 8).1.suppliers =
          (DB.mk [] [] [] [] []).suppliers ++
            [ { id := 7, user_id := freshSignUpProfile.user_id,
                name := freshSignUpProfile.business_name,
                contact_email := freshSignUpProfile.contact_number,
                address := none, status := "active" } ]
      ∧ supplierCount (signUpSupplierRecords (DB.mk [] [] [] [] [])
            freshSignUpProfile 7 8).1 freshSignUpProfile.user_id = 1) :=
  ⟨by decide, by decide,
    signUp_supplier_trigger_collision (DB.mk [] [] [] [] []) freshSignUpProfile 7 8
      (by decide) (by decide)⟩

end SatyaMart
